import Mathlib

/-!
A verification development for the network-builder backend (`app.py`).

The program reads two CSV tables (citation events and author affiliations)
and turns each into a node/link graph.  The definitions below are a shallow
embedding of the Python source:

* a loaded CSV table is a `List` of row records whose fields are `Option`s
  (a missing cell is `Option.none`); `Option.none` at the file level models a
  missing file (`os.path.exists` false);
* pandas `unique()` (first-occurrence deduplication) is `uniqueFirst`;
  pandas `groupby` sorts its keys, modelled with `List.insertionSort` over
  the lexicographic string order `pyStrLt` (Python compares strings by code
  points, as `pyStrLt` does on the underlying character lists);
* Python `str.strip` / `str.lower` / `int(...)` on strings are `pyStrip`,
  `pyLower` and `pyStrToInt?`;
* machine floats appear only in the constant formula
  `impact_score = citation_count * 0.8 + 2.0`; the literal is modelled as the
  exact rational `4/5` (`impactScoreVal`), which is inessential: every claim
  about it only compares the two builders' use of the same formula;
* a builder returns `NetResult`: `error = Option.none` is the success shape
  `{"nodes": ..., "links": ...}`, `error = some msg` is the error shape
  `{"error": msg, "nodes": [], "links": []}` produced by the missing-file
  check or the `except` handler.
-/

/-- pandas `Series.unique()`: the distinct values of a list in order of first
occurrence.  `List.dedup` keeps the last occurrence of each value, so
reversing before and after yields first-occurrence order. -/
def uniqueFirst {α : Type} [DecidableEq α] (l : List α) : List α :=
  l.reverse.dedup.reverse

theorem mem_uniqueFirst {α : Type} [DecidableEq α] {a : α} {l : List α} :
    a ∈ uniqueFirst l ↔ a ∈ l := by
  simp [uniqueFirst, List.mem_dedup]

theorem nodup_uniqueFirst {α : Type} [DecidableEq α] (l : List α) :
    (uniqueFirst l).Nodup := by
  simp [uniqueFirst, List.nodup_dedup]

theorem uniqueFirst_eq_self {α : Type} [DecidableEq α] {l : List α}
    (h : l.Nodup) : uniqueFirst l = l := by
  unfold uniqueFirst
  rw [List.Nodup.dedup (List.nodup_reverse.mpr h), List.reverse_reverse]

theorem length_uniqueFirst_le {α : Type} [DecidableEq α] (l : List α) :
    (uniqueFirst l).length ≤ l.length := by
  simpa [uniqueFirst] using (List.dedup_sublist l.reverse).length_le

/-- Lexicographic (code-point) comparison of character lists: the order Python
uses to compare strings. -/
def charListLt : List Char → List Char → Bool
  | [], [] => false
  | [], _ :: _ => true
  | _ :: _, [] => false
  | a :: as, b :: bs => if a < b then true else if b < a then false else charListLt as bs

theorem charListLt_irrefl (l : List Char) : charListLt l l = false := by
  induction l with
  | nil => rfl
  | cons a as ih => simp [charListLt, ih]

theorem charListLt_asymm :
    ∀ {l₁ l₂ : List Char}, charListLt l₁ l₂ = true → charListLt l₂ l₁ = false
  | [], [], h => by simp [charListLt] at h
  | [], _ :: _, _ => rfl
  | _ :: _, [], h => by simp [charListLt] at h
  | a :: as, b :: bs, h => by
    by_cases hab : a < b
    · simp [charListLt, hab, asymm hab, ne_of_gt hab]
    · by_cases hba : b < a
      · simp [charListLt, hab, hba] at h
      · have : ¬ b < a := hba
        simp only [charListLt, if_neg hab, if_neg hba] at h
        simp [charListLt, hab, hba, charListLt_asymm h]

theorem charListLt_trans :
    ∀ {l₁ l₂ l₃ : List Char}, charListLt l₁ l₂ = true → charListLt l₂ l₃ = true →
      charListLt l₁ l₃ = true
  | [], _ :: _, _ :: _, _, _ => rfl
  | [], [], _, h, _ => by simp [charListLt] at h
  | l₁, [], _, h₁, _ => by cases l₁ <;> simp [charListLt] at h₁
  | _ :: _, _ :: _, [], _, h₂ => by simp [charListLt] at h₂
  | a :: as, b :: bs, c :: cs, h₁, h₂ => by
    by_cases hab : a < b <;> by_cases hbc : b < c
    · have hac : a < c := lt_trans hab hbc
      simp [charListLt, hac]
    · have hcb : ¬ c < b := by
        intro hcb
        simp [charListLt, hbc, hcb] at h₂
      have hbc' : b = c := le_antisymm (not_lt.mp hcb) (not_lt.mp hbc)
      subst hbc'
      simp [charListLt, hab]
    · have hba : ¬ b < a := by
        intro hba
        simp [charListLt, hab, hba] at h₁
      have hab' : a = b := le_antisymm (not_lt.mp hba) (not_lt.mp hab)
      subst hab'
      simp [charListLt, hbc]
    · have hba : ¬ b < a := by
        intro hba
        simp [charListLt, hab, hba] at h₁
      have hcb : ¬ c < b := by
        intro hcb
        simp [charListLt, hbc, hcb] at h₂
      have hab' : a = b := le_antisymm (not_lt.mp hba) (not_lt.mp hab)
      have hbc' : b = c := le_antisymm (not_lt.mp hcb) (not_lt.mp hbc)
      subst hab'; subst hbc'
      simp only [charListLt, if_neg (lt_irrefl a)] at h₁ h₂ ⊢
      exact charListLt_trans h₁ h₂

theorem charListLt_connex :
    ∀ {l₁ l₂ : List Char}, charListLt l₁ l₂ = false → charListLt l₂ l₁ = false →
      l₁ = l₂
  | [], [], _, _ => rfl
  | [], _ :: _, h, _ => by simp [charListLt] at h
  | _ :: _, [], _, h => by simp [charListLt] at h
  | a :: as, b :: bs, h₁, h₂ => by
    by_cases hab : a < b
    · simp [charListLt, hab] at h₁
    · by_cases hba : b < a
      · simp [charListLt, hba] at h₂
      · have hab' : a = b := le_antisymm (not_lt.mp hba) (not_lt.mp hab)
        subst hab'
        simp only [charListLt, if_neg (lt_irrefl a)] at h₁ h₂
        rw [charListLt_connex h₁ h₂]

/-- Python `a < b` on strings: lexicographic comparison by code point. -/
def pyStrLt (a b : String) : Bool := charListLt a.data b.data

/-- The strict order as a proposition. -/
def pyLt (a b : String) : Prop := pyStrLt a b = true

/-- The non-strict companion (`a ≤ b` iff not `b < a`), the relation
`sorted`/sorted group keys order by. -/
def pyLe (a b : String) : Prop := pyStrLt b a = false

instance : DecidableRel pyLt := fun a b => instDecidableEqBool (pyStrLt a b) true

instance : DecidableRel pyLe := fun a b => instDecidableEqBool (pyStrLt b a) false

theorem string_data_eq {a b : String} (h : a.data = b.data) : a = b := by
  cases a; cases b; exact congrArg String.mk h

theorem pyLt_or_eq_or_gt (a b : String) : pyLt a b ∨ a = b ∨ pyLt b a := by
  cases h₁ : pyStrLt a b
  · cases h₂ : pyStrLt b a
    · exact Or.inr (Or.inl (string_data_eq (charListLt_connex h₁ h₂)))
    · exact Or.inr (Or.inr h₂)
  · exact Or.inl h₁

theorem pyLt_trans {a b c : String} (h₁ : pyLt a b) (h₂ : pyLt b c) : pyLt a c :=
  charListLt_trans h₁ h₂

theorem pyLt_asymm {a b : String} (h : pyLt a b) : ¬ pyLt b a := by
  intro h'
  have hf : charListLt b.data a.data = false :=
    charListLt_asymm (show charListLt a.data b.data = true from h)
  have ht : charListLt b.data a.data = true := h'
  rw [hf] at ht
  exact Bool.false_ne_true ht

theorem pyLt_irrefl (a : String) : ¬ pyLt a a := by
  intro h
  have ht : charListLt a.data a.data = true := h
  rw [charListLt_irrefl] at ht
  exact Bool.false_ne_true ht

theorem pyLe_of_not_lt {a b : String} (h : ¬ pyLt b a) : pyLe a b := by
  cases hx : pyStrLt b a with
  | false => exact hx
  | true => exact absurd hx h

theorem not_lt_of_pyLe {a b : String} (h : pyLe a b) : ¬ pyLt b a := by
  intro h'
  have hf : pyStrLt b a = false := h
  have ht : pyStrLt b a = true := h'
  rw [hf] at ht
  exact Bool.false_ne_true ht

instance : IsTotal String pyLe where
  total a b := by
    rcases pyLt_or_eq_or_gt a b with h | h | h
    · exact Or.inl (pyLe_of_not_lt (pyLt_asymm h))
    · subst h; exact Or.inl (pyLe_of_not_lt (pyLt_irrefl a))
    · exact Or.inr (pyLe_of_not_lt (pyLt_asymm h))

instance : IsTrans String pyLe where
  trans a b c hab hbc := by
    apply pyLe_of_not_lt
    intro hca
    rcases pyLt_or_eq_or_gt b c with h | h | h
    · exact absurd (pyLt_trans h hca) (not_lt_of_pyLe hab)
    · subst h; exact absurd hca (not_lt_of_pyLe hab)
    · exact absurd h (not_lt_of_pyLe hbc)

theorem pyLt_of_pyLe_of_ne {a b : String} (h : pyLe a b) (hne : a ≠ b) : pyLt a b := by
  rcases pyLt_or_eq_or_gt a b with h' | h' | h'
  · exact h'
  · exact absurd h' hne
  · exact absurd h' (not_lt_of_pyLe h)

/-- Python `str.strip()`: drop leading and trailing whitespace. -/
def pyStrip (s : String) : String :=
  ⟨((s.data.dropWhile Char.isWhitespace).reverse.dropWhile Char.isWhitespace).reverse⟩

/-- Python `str.lower()` (ASCII case folding, as used on the role vocabulary). -/
def pyLower (s : String) : String := ⟨s.data.map Char.toLower⟩

/-- Digit-sequence parser for Python `int(str)`: a run of decimal digits in
which an underscore may stand between two digits.  `acc` is the value so far,
`lastDigit` whether the previous character was a digit (so an underscore is
allowed and the end of input is a valid stop). -/
def pyDigits? : List Char → Nat → Bool → Option Nat
  | [], acc, lastDigit => if lastDigit then some acc else Option.none
  | c :: rest, acc, lastDigit =>
    if c.isDigit then pyDigits? rest (acc * 10 + (c.toNat - 48)) true
    else if c = '_' ∧ lastDigit = true then pyDigits? rest acc false
    else Option.none

/-- Python `int(s)` on a string: optional surrounding whitespace, an optional
sign, then a digit run (with embedded underscores); `Option.none` models the
`ValueError` the source catches. -/
def pyStrToInt? (s : String) : Option Int :=
  match (pyStrip s).data with
  | [] => Option.none
  | c :: rest =>
    if c = '+' then (pyDigits? rest 0 false).map Int.ofNat
    else if c = '-' then (pyDigits? rest 0 false).map (fun n => -(n : Int))
    else (pyDigits? (c :: rest) 0 false).map Int.ofNat

/-- A raw `author_position` cell: missing (`null`, pandas `NaN`), an integer,
or a string.  These are the value kinds the column can hold after
`pd.read_csv`. -/
inductive RawCell where
  | null
  | int (n : Int)
  | str (s : String)
deriving DecidableEq, Repr

/-- `clean_author_position` (app.py lines 34-55): `pd.isna` sends a missing
cell to `None`; `int(position)` is tried next (an `int` cell is returned as
is, a string cell is parsed); on `ValueError`/`TypeError` the stripped,
lower-cased text is looked up in the two role vocabularies; anything else is
`None`. -/
def clean_author_position : RawCell → Option Int
  | RawCell.null => Option.none
  | RawCell.int n => some n
  | RawCell.str s =>
    match pyStrToInt? s with
    | some n => some n
    | Option.none =>
      let position_str := pyLower (pyStrip s)
      if position_str ∈ (["middle", "mid"] : List String) then some 2
      else if position_str ∈ (["last", "corresponding", "corr"] : List String) then some (-1)
      else Option.none

/-- A row of the citation CSV `refs_yeshiva_cs_20_25.csv` as loaded with
schema `{citing_paperid: str, cited_paperid: str, year: int, ref_year: int}`;
a missing cell is `Option.none`. -/
structure CitationRow where
  citing_paperid : Option String
  cited_paperid : Option String
  year : Option Int
  ref_year : Option Int
deriving DecidableEq, Repr

/-- A retained citation record: all four fields present. -/
structure CiteRec where
  citing_paperid : String
  cited_paperid : String
  year : Int
  ref_year : Int
deriving DecidableEq, Repr

/-- `df.dropna(subset=["citing_paperid","cited_paperid","year","ref_year"])`. -/
def dropnaCite (df : List CitationRow) : List CiteRec :=
  df.filterMap fun r =>
    match r.citing_paperid, r.cited_paperid, r.year, r.ref_year with
    | some a, some b, some y, some ry => some ⟨a, b, y, ry⟩
    | _, _, _, _ => Option.none

/-- Data cleaning for the citation builders (app.py lines 78-79): drop rows
with a missing required field, then keep `2020 <= year <= 2025`. -/
def cleanCite (df : List CitationRow) : List CiteRec :=
  (dropnaCite df).filter fun r => decide (2020 ≤ r.year) && decide (r.year ≤ 2025)

/-- `pd.concat([df_clean["citing_paperid"], df_clean["cited_paperid"]]).unique()`. -/
def allPaperIds (clean : List CiteRec) : List String :=
  uniqueFirst (clean.map (fun r => r.citing_paperid) ++ clean.map (fun r => r.cited_paperid))

/-- A paper's `publish_year`: an `int` or the string sentinel `"Unknown"`. -/
inductive PublishYear where
  | known (y : Int)
  | unknown
deriving DecidableEq, Repr

/-- A node of the citation network (app.py lines 100-106). -/
structure PaperNode where
  id : String
  name : String
  publish_year : PublishYear
  citation_count : Nat
  institution : String
deriving DecidableEq, Repr

/-- Node construction of the citation builder (app.py lines 82-106): one node
per distinct id; `publish_year` from the first retained record citing as this
id, else the first cited as this id, else `"Unknown"`; `citation_count` the
number of retained records in which the id is the cited paper. -/
def buildCiteNodes (clean : List CiteRec) : List PaperNode :=
  (allPaperIds clean).map fun paper_id =>
    let citing_records := clean.filter fun r => decide (r.citing_paperid = paper_id)
    let cited_records := clean.filter fun r => decide (r.cited_paperid = paper_id)
    let publish_year : PublishYear :=
      match citing_records with
      | rc :: _ => PublishYear.known rc.year
      | [] =>
        match cited_records with
        | rd :: _ => PublishYear.known rd.ref_year
        | [] => PublishYear.unknown
    { id := paper_id
      name := "Paper_" ++ paper_id
      publish_year := publish_year
      citation_count := cited_records.length
      institution := "Yeshiva University, Computer Science Department" }

/-- An edge of the citation network (app.py lines 121-128). -/
structure CitationLink where
  source : String
  target : String
  value : Nat
  citing_year : Int
  cited_year : Int
  year_diff : Int
deriving DecidableEq, Repr

/-- The `(cited_paperid, citing_paperid)` key of each retained record. -/
def citePairs (clean : List CiteRec) : List (String × String) :=
  clean.map fun r => (r.cited_paperid, r.citing_paperid)

/-- Lexicographic order on the `(cited, citing)` group keys: pandas `groupby`
sorts its keys. -/
def citeKeyLe (p q : String × String) : Prop :=
  pyLt p.1 q.1 ∨ (p.1 = q.1 ∧ pyLe p.2 q.2)

instance : DecidableRel citeKeyLe := fun p q => by
  unfold citeKeyLe; infer_instance

/-- `df_clean.groupby(["cited_paperid","citing_paperid"]).size()` keys: the
distinct `(cited, citing)` pairs, in sorted key order. -/
def citeLinkKeys (clean : List CiteRec) : List (String × String) :=
  List.insertionSort citeKeyLe (uniqueFirst (citePairs clean))

/-- Edge construction of the citation builder (app.py lines 109-128): one
candidate edge per group key; the guard re-checks that both endpoints are
node ids; `citing_year` is the `year` of the first retained record whose
citing id matches, `cited_year` the `ref_year` of the first whose cited id
matches (`iloc[0]`; the `Option.none` match arms are unreachable because the
key comes from a retained record). -/
def citeEmit (clean : List CiteRec) (nodeIds : List String)
    (k : String × String) : Option CitationLink :=
  let cited_id := k.1
  let citing_id := k.2
  let cite_times := (citePairs clean).count k
  if nodeIds.any (fun i => decide (i = cited_id)) &&
      nodeIds.any (fun i => decide (i = citing_id)) then
    match clean.find? (fun r => decide (r.citing_paperid = citing_id)),
          clean.find? (fun r => decide (r.cited_paperid = cited_id)) with
    | some rc, some rd =>
      some { source := cited_id
             target := citing_id
             value := cite_times
             citing_year := rc.year
             cited_year := rd.ref_year
             year_diff := rc.year - rd.ref_year }
    | _, _ => Option.none
  else Option.none

/-- The loop body of lines 112-128 over the sorted group keys. -/
def buildCiteLinks (clean : List CiteRec) (nodeIds : List String) : List CitationLink :=
  (citeLinkKeys clean).filterMap (citeEmit clean nodeIds)

/-- A builder's result: `error = Option.none` is the success shape
`{"nodes": ..., "links": ...}`; `error = some msg` is the error shape
`{"error": msg, "nodes": [], "links": []}`. -/
structure NetResult (N L : Type) where
  error : Option String
  nodes : List N
  links : List L
deriving DecidableEq, Repr

/-- The citation CSV path `CURRENT_DIR/"refs_yeshiva_cs_20_25.csv"`. -/
def citationCsvPath (currentDir : String) : String :=
  currentDir ++ "/refs_yeshiva_cs_20_25.csv"

/-- The affiliation CSV path `CURRENT_DIR/"affils_yeshiva_cs_20_25.csv"`. -/
def affilsCsvPath (currentDir : String) : String :=
  currentDir ++ "/affils_yeshiva_cs_20_25.csv"

/-- `generate_citation_network` (app.py lines 59-142).  The table argument is
`Option.none` when `os.path.exists` fails, in which case the error shape
naming the searched path is returned; otherwise the cleaned rows give nodes
and links.  No other statement of the `try` block can raise in this model
(the only partial operations, the `iloc[0]` lookups, are guarded above), so
the `except` handler has no successful-input path here. -/
def generate_citation_network (currentDir : String) (file : Option (List CitationRow)) :
    NetResult PaperNode CitationLink :=
  match file with
  | Option.none =>
    { error := some ("The CSV file for the citation network could not be found. " ++
        "Please check the path: " ++ citationCsvPath currentDir)
      nodes := []
      links := [] }
  | some df =>
    let df_clean := cleanCite df
    let nodes := buildCiteNodes df_clean
    { error := Option.none
      nodes := nodes
      links := buildCiteLinks df_clean (nodes.map fun n => n.id) }

/-- A row of the affiliation CSV `affils_yeshiva_cs_20_25.csv` as loaded with
schema `{paperid: str, authorid: str, institutionid: str}`; `author_position`
is left raw.  A missing cell is `Option.none` / `RawCell.null`. -/
structure AffRow where
  paperid : Option String
  authorid : Option String
  institutionid : Option String
  author_position : RawCell
deriving DecidableEq, Repr

/-- The sampling cap (app.py lines 163-166): when the table has more than
1000 rows, keep only rows whose paper id is among the first 1000 distinct
paper ids in input order (`unique()[:1000]` then `isin`). -/
def sampleCapped (df : List AffRow) : List AffRow :=
  if 1000 < df.length then
    let unique_papers := (uniqueFirst (df.map fun r => r.paperid)).take 1000
    df.filter fun r => decide (r.paperid ∈ unique_papers)
  else df

/-- A cleaned affiliation record: paper id, author id and resolved position
all present. -/
structure AffRec where
  paperid : String
  authorid : String
  author_position_clean : Int
deriving DecidableEq, Repr

/-- Cleaning for the collaboration builder (app.py lines 169-175): resolve
`author_position`, drop rows where paper id, author id or the resolved
position is missing, then drop rows whose paper id or author id strips to the
empty string. -/
def cleanAff (df : List AffRow) : List AffRec :=
  df.filterMap fun r =>
    match r.paperid, r.authorid, clean_author_position r.author_position with
    | some p, some a, some k =>
      if pyStrip p ≠ "" ∧ pyStrip a ≠ "" then some ⟨p, a, k⟩ else Option.none
    | _, _, _ => Option.none

/-- `df_clean[pred].groupby("authorid")["paperid"].nunique()` for one author:
the number of distinct paper ids among this author's rows satisfying
`pred`. -/
def nuniquePapers (clean : List AffRec) (pred : AffRec → Bool) (a : String) : Nat :=
  (uniqueFirst (((clean.filter pred).filter fun r => decide (r.authorid = a)).map
    fun r => r.paperid)).length

/-- The distinct author ids in sorted order: `groupby("authorid")` keys. -/
def authorIds (clean : List AffRec) : List String :=
  List.insertionSort pyLe (uniqueFirst (clean.map fun r => r.authorid))

/-- A node of the collaboration network (app.py lines 190-198). -/
structure AuthorNode where
  id : String
  name : String
  department : String
  papers_published : Nat
  first_author_papers : Nat
  corr_author_papers : Nat
  h_index : Nat
deriving DecidableEq, Repr

/-- Node construction of the collaboration builder (app.py lines 178-198):
per author, the distinct-paper counts overall, at resolved position 1 and at
resolved position -1 (the left merges with `fillna(0)` make the restricted
counts 0 for authors with no such rows); `h_index` is the placeholder
`min(papers_published, 15)`.  The filter `papers_published >= 0` of line 184
retains every row (counts are non-negative) and is omitted. -/
def buildAuthorNodes (clean : List AffRec) : List AuthorNode :=
  (authorIds clean).map fun author_id =>
    let papers_published := nuniquePapers clean (fun _ => true) author_id
    { id := author_id
      name := "Author_" ++ author_id
      department := "Yeshiva University, Computer Science Department"
      papers_published := papers_published
      first_author_papers :=
        nuniquePapers clean (fun r => decide (r.author_position_clean = 1)) author_id
      corr_author_papers :=
        nuniquePapers clean (fun r => decide (r.author_position_clean = -1)) author_id
      h_index := min papers_published 15 }

/-- The distinct paper ids in sorted order: `groupby("paperid")` keys. -/
def paperIdKeys (clean : List AffRec) : List String :=
  List.insertionSort pyLe (uniqueFirst (clean.map fun r => r.paperid))

/-- One paper's author list, sorted: `sorted(row["authors"])` where the group
list keeps the rows of this paper in input order. -/
def authorsOfPaper (clean : List AffRec) (p : String) : List String :=
  List.insertionSort pyLe ((clean.filter fun r => decide (r.paperid = p)).map
    fun r => r.authorid)

/-- `itertools.combinations(l, 2)`: all ordered-by-position pairs. -/
def pairsOf : List String → List (String × String)
  | [] => []
  | a :: rest => (rest.map fun b => (a, b)) ++ pairsOf rest

/-- One row of the `collaboration_pairs` list (app.py lines 209-213). -/
structure CollabPair where
  source_author : String
  target_author : String
  paperid : String
deriving DecidableEq, Repr

/-- Pair generation (app.py lines 201-213): per paper (in group-key order),
sort the author list and, when it has at least 2 entries, append all
`C(k,2)` pairs tagged with the paper id. -/
def collaboration_pairs (clean : List AffRec) : List CollabPair :=
  (paperIdKeys clean).flatMap fun p =>
    let authors := authorsOfPaper clean p
    if 2 ≤ authors.length then
      (pairsOf authors).map fun pr => ⟨pr.1, pr.2, p⟩
    else []

/-- The number of distinct papers on which both authors appear together
(the quantity the spec's collaboration-edge `value` describes). -/
def coAuthoredPapers (clean : List AffRec) (a b : String) : Nat :=
  (uniqueFirst (clean.map fun r => r.paperid)).countP fun p =>
    (clean.any fun r => decide (r.paperid = p ∧ r.authorid = a))
      && (clean.any fun r => decide (r.paperid = p ∧ r.authorid = b))

/-- An edge of the collaboration network (app.py lines 227-232). -/
structure CollabLink where
  source : String
  target : String
  value : Nat
  co_authored_papers : Nat
deriving DecidableEq, Repr

/-- The distinct `(source_author, target_author)` keys of
`groupby(["source_author","target_author"])`, in sorted key order. -/
def collabKeys (pairs : List CollabPair) : List (String × String) :=
  List.insertionSort citeKeyLe
    (uniqueFirst (pairs.map fun c => (c.source_author, c.target_author)))

/-- Edge construction of the collaboration builder (app.py lines 215-232):
one candidate edge per pair key with its group size as `value` and
`co_authored_papers`, kept when both endpoints are node ids. -/
def collabEmit (pairs : List CollabPair) (nodeIds : List String)
    (k : String × String) : Option CollabLink :=
  let collaboration_times := (pairs.map fun c => (c.source_author, c.target_author)).count k
  if decide (k.1 ∈ nodeIds) && decide (k.2 ∈ nodeIds) then
    some { source := k.1
           target := k.2
           value := collaboration_times
           co_authored_papers := collaboration_times }
  else Option.none

/-- The loop body of lines 221-232 over the sorted group keys. -/
def buildCollabLinks (pairs : List CollabPair) (nodeIds : List String) : List CollabLink :=
  (collabKeys pairs).filterMap (collabEmit pairs nodeIds)

/-- The post-cap body of `generate_collaboration_network` (app.py lines
169-241): rows are cleaned, author nodes built, and collaboration pairs
generated.  When the pair list is empty, `pd.DataFrame([])` has no columns
and `groupby(["source_author","target_author"])` raises `KeyError`, which
the `except` handler converts to the error shape (the message models
`f"...failed：{str(e)}"`); otherwise the grouped pairs give the links. -/
def collabProcess (affils_df : List AffRow) : NetResult AuthorNode CollabLink :=
  let df_clean := cleanAff affils_df
  let nodes := buildAuthorNodes df_clean
  let pairs := collaboration_pairs df_clean
  if pairs.isEmpty then
    { error := some ("Author collaboration network data processing failed：" ++
        "KeyError: source_author")
      nodes := []
      links := [] }
  else
    { error := Option.none
      nodes := nodes
      links := buildCollabLinks pairs (nodes.map fun n => n.id) }

/-- The builder itself: the missing-file check, then the sampling cap, then
the post-cap pipeline. -/
def generate_collaboration_network (currentDir : String) (file : Option (List AffRow)) :
    NetResult AuthorNode CollabLink :=
  match file with
  | Option.none =>
    { error := some ("The CSV file for the author collaboration network could not " ++
        "be found.：" ++ affilsCsvPath currentDir)
      nodes := []
      links := [] }
  | some df => collabProcess (sampleCapped df)

/-- An enhanced citation node (app.py lines 283-291): a citation node plus
the constant `topic` and the derived `impact_score`. -/
structure EnhancedPaperNode where
  id : String
  name : String
  publish_year : PublishYear
  citation_count : Nat
  institution : String
  topic : String
  impact_score : Rat
deriving DecidableEq, Repr

/-- `impact_score = citation_count * 0.8 + 2.0` (app.py line 282); the float
literal `0.8` is modelled as the exact rational `4/5`. -/
def impactScoreVal (citation_count : Nat) : Rat :=
  (citation_count : Rat) * (4 / 5) + 2

/-- Node construction of the enhanced builder (app.py lines 265-291): the
citation builder's node computation plus `topic` and `impact_score`. -/
def buildEnhancedNodes (clean : List CiteRec) : List EnhancedPaperNode :=
  (allPaperIds clean).map fun paper_id =>
    let citing_records := clean.filter fun r => decide (r.citing_paperid = paper_id)
    let cited_records := clean.filter fun r => decide (r.cited_paperid = paper_id)
    let publish_year : PublishYear :=
      match citing_records with
      | rc :: _ => PublishYear.known rc.year
      | [] =>
        match cited_records with
        | rd :: _ => PublishYear.known rd.ref_year
        | [] => PublishYear.unknown
    { id := paper_id
      name := "Paper_" ++ paper_id
      publish_year := publish_year
      citation_count := cited_records.length
      institution := "Yeshiva University, Computer Science Department"
      topic := "Computer Science"
      impact_score := impactScoreVal cited_records.length }

/-- `generate_enhanced_citation_network` (app.py lines 242-327): the citation
builder's pipeline re-run verbatim, with the two extra node fields; the link
code (lines 294-313) is identical to lines 109-128 and is shared as
`buildCiteLinks`. -/
def generate_enhanced_citation_network (currentDir : String)
    (file : Option (List CitationRow)) : NetResult EnhancedPaperNode CitationLink :=
  match file with
  | Option.none =>
    { error := some ("The CSV file for the citation network could not be found. " ++
        "Please check the path: " ++ citationCsvPath currentDir)
      nodes := []
      links := [] }
  | some df =>
    let df_clean := cleanCite df
    let nodes := buildEnhancedNodes df_clean
    { error := Option.none
      nodes := nodes
      links := buildCiteLinks df_clean (nodes.map fun n => n.id) }

mutual
/-- A Python value as `convert_numpy_types` can receive it: the plain
primitives (`None`, `bool`, `int`, `float`, `str`), the library-native NumPy
scalars (`np.integer`, `np.floating`) and arrays, and the containers the
builders produce (`dict`, `list`) plus `tuple` (a sequence the function does
not recurse into).  Numeric payloads are carried exactly (`Int`/`Rat`); the
claims about this function never compute with them. -/
inductive PyVal where
  | vNone
  | vBool (b : Bool)
  | vInt (n : Int)
  | vFloat (q : Rat)
  | vStr (s : String)
  | npInt (n : Int)
  | npFloat (q : Rat)
  | ndarray (elems : PyList)
  | vList (elems : PyList)
  | vTuple (elems : PyList)
  | vDict (entries : PyDict)
deriving DecidableEq, Repr
inductive PyList where
  | nil
  | cons (head : PyVal) (tail : PyList)
deriving DecidableEq, Repr
inductive PyDict where
  | dnil
  | dcons (key : String) (val : PyVal) (tail : PyDict)
deriving DecidableEq, Repr
end

mutual
/-- `np.ndarray.tolist()` on one element: NumPy scalars become plain scalars,
nested arrays become nested lists, and any other element (of an object
array) is returned as is. -/
def tolistElem : PyVal → PyVal
  | PyVal.npInt n => PyVal.vInt n
  | PyVal.npFloat q => PyVal.vFloat q
  | PyVal.ndarray es => PyVal.vList (tolistList es)
  | v => v
def tolistList : PyList → PyList
  | PyList.nil => PyList.nil
  | PyList.cons e es => PyList.cons (tolistElem e) (tolistList es)
end

mutual
/-- `convert_numpy_types` (app.py lines 15-28): `np.integer` to `int`,
`np.floating` to `float`, `np.ndarray` to `tolist()`, recursion through
`dict` values and `list` items, everything else returned unchanged (the
final `else` also covers tuples: `isinstance(obj, list)` is false for a
tuple). -/
def convert_numpy_types : PyVal → PyVal
  | PyVal.npInt n => PyVal.vInt n
  | PyVal.npFloat q => PyVal.vFloat q
  | PyVal.ndarray es => PyVal.vList (tolistList es)
  | PyVal.vDict kvs => PyVal.vDict (convertDict kvs)
  | PyVal.vList es => PyVal.vList (convertList es)
  | v => v
def convertList : PyList → PyList
  | PyList.nil => PyList.nil
  | PyList.cons e es => PyList.cons (convert_numpy_types e) (convertList es)
def convertDict : PyDict → PyDict
  | PyDict.dnil => PyDict.dnil
  | PyDict.dcons k v es => PyDict.dcons k (convert_numpy_types v) (convertDict es)
end

mutual
/-- A value made only of serialization-safe primitives: no NumPy scalar or
array anywhere inside. -/
def isPlain : PyVal → Bool
  | PyVal.npInt _ => false
  | PyVal.npFloat _ => false
  | PyVal.ndarray _ => false
  | PyVal.vDict kvs => isPlainDict kvs
  | PyVal.vList es => isPlainList es
  | PyVal.vTuple es => isPlainList es
  | _ => true
def isPlainList : PyList → Bool
  | PyList.nil => true
  | PyList.cons e es => isPlain e && isPlainList es
def isPlainDict : PyDict → Bool
  | PyDict.dnil => true
  | PyDict.dcons _ v es => isPlain v && isPlainDict es
end

mutual
/-- A valid element of a numeric `ndarray`: a NumPy scalar or a nested
numeric array — exactly what `tolist()` fully converts. -/
def numericArrayElem : PyVal → Bool
  | PyVal.npInt _ => true
  | PyVal.npFloat _ => true
  | PyVal.ndarray es => numericArrayList es
  | _ => false
def numericArrayList : PyList → Bool
  | PyList.nil => true
  | PyList.cons e es => numericArrayElem e && numericArrayList es
end

mutual
/-- A value `convert_numpy_types` fully normalizes: plain scalars, NumPy
scalars, numeric arrays, and `dict`/`list` containers of such values — no
tuples, and no object arrays. -/
def convertible : PyVal → Bool
  | PyVal.npInt _ => true
  | PyVal.npFloat _ => true
  | PyVal.ndarray es => numericArrayList es
  | PyVal.vDict kvs => convertibleDict kvs
  | PyVal.vList es => convertibleList es
  | PyVal.vTuple _ => false
  | _ => true
def convertibleList : PyList → Bool
  | PyList.nil => true
  | PyList.cons e es => convertible e && convertibleList es
def convertibleDict : PyDict → Bool
  | PyDict.dnil => true
  | PyDict.dcons _ v es => convertible v && convertibleDict es
end

/-- An affiliation table in which the same `(paperid, authorid)` cell pair
occurs on two rows: paper `"P"` lists author `"a"` twice and author `"b"`
once. -/
def dupAffRows : List AffRow :=
  [ { paperid := some "P", authorid := some "a", institutionid := Option.none,
      author_position := RawCell.int 1 }
  , { paperid := some "P", authorid := some "a", institutionid := Option.none,
      author_position := RawCell.int 2 }
  , { paperid := some "P", authorid := some "b", institutionid := Option.none,
      author_position := RawCell.int 3 } ]

/-- A small duplicate-free affiliation table: authors `"a"` and `"b"` share
papers `"P"` and `"Q"`. -/
def twoPaperAffRows : List AffRow :=
  [ { paperid := some "P", authorid := some "a", institutionid := Option.none,
      author_position := RawCell.int 1 }
  , { paperid := some "P", authorid := some "b", institutionid := Option.none,
      author_position := RawCell.str "last" }
  , { paperid := some "Q", authorid := some "a", institutionid := Option.none,
      author_position := RawCell.int 1 }
  , { paperid := some "Q", authorid := some "b", institutionid := Option.none,
      author_position := RawCell.int 2 } ]

/-- An affiliation table with 1001 rows and 1001 distinct paper ids (the
`i`-th paper id is a run of `i` copies of `a`). -/
def manyPapersAffRows : List AffRow :=
  (List.range 1001).map fun i =>
    { paperid := some (String.mk (List.replicate i 'a'))
      authorid := some "z"
      institutionid := Option.none
      author_position := RawCell.int 1 }

/-- An affiliation table whose only paper has a single author row. -/
def singleAuthorAffRows : List AffRow :=
  [ { paperid := some "P", authorid := some "a", institutionid := Option.none,
      author_position := RawCell.int 1 } ]

/-- A two-row citation table: paper `"P1"` cites `"P2"` in 2021 and again in
2022 (the spec's end-to-end example). -/
def twoRowCitationRows : List CitationRow :=
  [ { citing_paperid := some "P1", cited_paperid := some "P2",
      year := some 2021, ref_year := some 2021 }
  , { citing_paperid := some "P1", cited_paperid := some "P2",
      year := some 2022, ref_year := some 2021 } ]

theorem countP_decide_eq_of_nodup {α : Type} [DecidableEq α] {l : List α}
    (h : l.Nodup) (a : α) :
    l.countP (fun y => decide (y = a)) = if a ∈ l then 1 else 0 := by
  induction l with
  | nil => simp
  | cons x xs ih =>
    obtain ⟨hx, hxs⟩ := List.nodup_cons.mp h
    by_cases hxa : x = a
    · subst hxa
      simp [List.countP_cons, ih hxs, hx]
    · simp [List.countP_cons, ih hxs, hxa, Ne.symm hxa]

theorem nodup_map_filterMap {α β : Type} {l : List α} {f : α → Option β} {g : β → α}
    (hl : l.Nodup) (hf : ∀ a b, f a = some b → g b = a) :
    ((l.filterMap f).map g).Nodup := by
  induction l with
  | nil => simp
  | cons a t ih =>
    obtain ⟨ha, ht⟩ := List.nodup_cons.mp hl
    rw [List.filterMap_cons]
    cases hfa : f a with
    | none => exact ih ht
    | some b =>
      rw [List.map_cons, List.nodup_cons]
      refine ⟨?_, ih ht⟩
      rw [hf a b hfa]
      intro hmem
      obtain ⟨b', hb', hgb'⟩ := List.mem_map.mp hmem
      obtain ⟨a', ha', hfa'⟩ := List.mem_filterMap.mp hb'
      rw [hf a' b' hfa'] at hgb'
      exact ha (hgb' ▸ ha')

/-- C7: a missing source table yields the error shape with empty nodes and
links, the error text ending in the searched path, for each of the three
builders; the embedding is a total function, so no exception reaches the
caller. -/
theorem missing_table_error_shape (currentDir : String) :
    ((generate_citation_network currentDir Option.none).nodes = []
      ∧ (generate_citation_network currentDir Option.none).links = []
      ∧ ∃ pre, (generate_citation_network currentDir Option.none).error
          = some (pre ++ citationCsvPath currentDir))
    ∧ ((generate_collaboration_network currentDir Option.none).nodes = []
      ∧ (generate_collaboration_network currentDir Option.none).links = []
      ∧ ∃ pre, (generate_collaboration_network currentDir Option.none).error
          = some (pre ++ affilsCsvPath currentDir))
    ∧ ((generate_enhanced_citation_network currentDir Option.none).nodes = []
      ∧ (generate_enhanced_citation_network currentDir Option.none).links = []
      ∧ ∃ pre, (generate_enhanced_citation_network currentDir Option.none).error
          = some (pre ++ citationCsvPath currentDir)) :=
  ⟨⟨rfl, rfl, ⟨"The CSV file for the citation network could not be found. " ++
      "Please check the path: ", rfl⟩⟩,
   ⟨rfl, rfl, ⟨"The CSV file for the author collaboration network could not " ++
      "be found.：", rfl⟩⟩,
   ⟨rfl, rfl, ⟨"The CSV file for the citation network could not be found. " ++
      "Please check the path: ", rfl⟩⟩⟩

/-- C10: on a table whose only paper has a single author row, the
collaboration builder computes a nonempty author node list but, because the
collaboration pair list is empty and grouping an empty frame raises, returns
the error shape instead of a successful result. -/
theorem single_author_pairs_failure :
    (generate_collaboration_network "dir" (some singleAuthorAffRows)).error.isSome = true
    ∧ (generate_collaboration_network "dir" (some singleAuthorAffRows)).nodes = []
    ∧ (generate_collaboration_network "dir" (some singleAuthorAffRows)).links = []
    ∧ collaboration_pairs (cleanAff (sampleCapped singleAuthorAffRows)) = []
    ∧ buildAuthorNodes (cleanAff (sampleCapped singleAuthorAffRows)) ≠ [] := by
  decide

/-- C4: `clean_author_position` is a total function following the ordered
policy: a missing cell gives `none`; an integer cell, or a string parsing as
a Python integer, gives that integer; otherwise the stripped lower-cased
text maps `middle`/`mid` to 2 and `last`/`corresponding`/`corr` to -1, and
anything else gives `none`.  In particular the seven sample inputs resolve
as the spec lists them, and (being a Lean function) no input raises. -/
theorem clean_author_position_policy :
    clean_author_position (RawCell.int 1) = some 1
    ∧ clean_author_position (RawCell.str "1") = some 1
    ∧ clean_author_position (RawCell.str "middle") = some 2
    ∧ clean_author_position (RawCell.str "last") = some (-1)
    ∧ clean_author_position (RawCell.str "corresponding") = some (-1)
    ∧ clean_author_position (RawCell.str "unknown") = Option.none
    ∧ clean_author_position RawCell.null = Option.none
    ∧ (∀ n : Int, clean_author_position (RawCell.int n) = some n)
    ∧ (∀ s : String, ∀ n : Int, pyStrToInt? s = some n →
        clean_author_position (RawCell.str s) = some n)
    ∧ (∀ s : String, pyStrToInt? s = Option.none →
        pyLower (pyStrip s) ∈ (["middle", "mid"] : List String) →
        clean_author_position (RawCell.str s) = some 2)
    ∧ (∀ s : String, pyStrToInt? s = Option.none →
        pyLower (pyStrip s) ∈ (["last", "corresponding", "corr"] : List String) →
        clean_author_position (RawCell.str s) = some (-1))
    ∧ (∀ s : String, pyStrToInt? s = Option.none →
        pyLower (pyStrip s) ∉ (["middle", "mid", "last", "corresponding", "corr"] : List String) →
        clean_author_position (RawCell.str s) = Option.none) := by
  refine ⟨by decide, by decide, by decide, by decide, by decide, by decide, rfl,
    fun n => rfl, ?_, ?_, ?_, ?_⟩
  · intro s n h
    simp [clean_author_position, h]
  · intro s h hv
    simp only [List.mem_cons, List.not_mem_nil, or_false] at hv
    rcases hv with hv | hv <;> simp [clean_author_position, h, hv]
  · intro s h hv
    simp only [List.mem_cons, List.not_mem_nil, or_false] at hv
    rcases hv with hv | hv | hv <;> simp [clean_author_position, h, hv]
  · intro s h hv
    simp only [List.mem_cons, List.not_mem_nil, or_false] at hv
    push_neg at hv
    obtain ⟨h1, h2, h3, h4, h5⟩ := hv
    simp [clean_author_position, h, h1, h2, h3, h4, h5]

theorem buildCiteNodes_map_id (clean : List CiteRec) :
    (buildCiteNodes clean).map (fun n => n.id) = allPaperIds clean := by
  rw [buildCiteNodes, List.map_map]
  exact List.map_id (allPaperIds clean)

theorem buildEnhancedNodes_map_id (clean : List CiteRec) :
    (buildEnhancedNodes clean).map (fun n => n.id) = allPaperIds clean := by
  rw [buildEnhancedNodes, List.map_map]
  exact List.map_id (allPaperIds clean)

theorem count_citePairs (clean : List CiteRec) (k : String × String) :
    (citePairs clean).count k
      = clean.countP fun r => decide (r.cited_paperid = k.1 ∧ r.citing_paperid = k.2) := by
  rw [citePairs, List.count_eq_countP, List.countP_map]
  apply List.countP_congr
  intro r _
  obtain ⟨k1, k2⟩ := k
  show ((r.cited_paperid, r.citing_paperid) == (k1, k2)) = true ↔ _
  simp [Prod.ext_iff]

theorem buildCiteLinks_mem {clean : List CiteRec} {nodeIds : List String}
    {l : CitationLink} :
    l ∈ buildCiteLinks clean nodeIds ↔
      ∃ k ∈ citeLinkKeys clean,
        k.1 ∈ nodeIds ∧ k.2 ∈ nodeIds
        ∧ ∃ rc rd,
            clean.find? (fun r => decide (r.citing_paperid = k.2)) = some rc
            ∧ clean.find? (fun r => decide (r.cited_paperid = k.1)) = some rd
            ∧ l = { source := k.1, target := k.2, value := (citePairs clean).count k,
                    citing_year := rc.year, cited_year := rd.ref_year,
                    year_diff := rc.year - rd.ref_year } := by
  rw [buildCiteLinks, List.mem_filterMap]
  constructor
  · rintro ⟨k, hk, hemit⟩
    refine ⟨k, hk, ?_⟩
    rw [citeEmit] at hemit
    by_cases hg : ((nodeIds.any fun i => decide (i = k.1))
        && nodeIds.any fun i => decide (i = k.2)) = true
    · rw [if_pos hg] at hemit
      obtain ⟨h1, h2⟩ : _ ∧ _ := by simpa using hg
      cases hf1 : clean.find? fun r => decide (r.citing_paperid = k.2) with
      | none => rw [hf1] at hemit; exact absurd hemit (by simp)
      | some rc =>
        cases hf2 : clean.find? fun r => decide (r.cited_paperid = k.1) with
        | none => rw [hf1, hf2] at hemit; exact absurd hemit (by simp)
        | some rd =>
          rw [hf1, hf2] at hemit
          exact ⟨h1, h2, rc, rd, rfl, rfl, (Option.some.inj hemit).symm⟩
    · rw [if_neg hg] at hemit
      exact absurd hemit (by simp)
  · rintro ⟨k, hk, h1, h2, rc, rd, hrc, hrd, hl⟩
    refine ⟨k, hk, ?_⟩
    rw [citeEmit]
    rw [if_pos (show ((nodeIds.any fun i => decide (i = k.1))
      && nodeIds.any fun i => decide (i = k.2)) = true by simp [h1, h2]), hrc, hrd, hl]

/-- C3: in the citation builder's result, each id occurring as citing or
cited id of a retained record has exactly one node (and no other id has
one), and that node's `citation_count` is the number of retained records in
which the id is the cited id. -/
theorem citation_nodes_characterization (currentDir : String) (rows : List CitationRow) :
    (∀ pid : String,
      (((generate_citation_network currentDir (some rows)).nodes.filter
          fun n => decide (n.id = pid)).length)
        = (if pid ∈ (cleanCite rows).map (fun r => r.citing_paperid)
              ++ (cleanCite rows).map (fun r => r.cited_paperid) then 1 else 0))
    ∧ (∀ n ∈ (generate_citation_network currentDir (some rows)).nodes,
        n.citation_count
          = (cleanCite rows).countP fun r => decide (r.cited_paperid = n.id)) := by
  constructor
  · intro pid
    have h1 : (((generate_citation_network currentDir (some rows)).nodes.filter
          fun n => decide (n.id = pid)).length)
        = List.countP (fun x => decide (x = pid)) (allPaperIds (cleanCite rows)) := by
      show (((buildCiteNodes (cleanCite rows)).filter fun n => decide (n.id = pid)).length) = _
      rw [buildCiteNodes, List.filter_map, List.length_map, ← List.countP_eq_length_filter]
      rfl
    rw [h1,
      countP_decide_eq_of_nodup (l := allPaperIds (cleanCite rows)) (nodup_uniqueFirst _) pid]
    have hiff : pid ∈ allPaperIds (cleanCite rows)
        ↔ pid ∈ (cleanCite rows).map (fun r => r.citing_paperid)
            ++ (cleanCite rows).map fun r => r.cited_paperid := mem_uniqueFirst
    by_cases hmem : pid ∈ (cleanCite rows).map (fun r => r.citing_paperid)
        ++ (cleanCite rows).map fun r => r.cited_paperid
    · rw [if_pos (hiff.mpr hmem), if_pos hmem]
    · rw [if_neg (fun h => hmem (hiff.mp h)), if_neg hmem]
  · intro n hn
    have hn' : n ∈ buildCiteNodes (cleanCite rows) := hn
    rw [buildCiteNodes] at hn'
    obtain ⟨pid, _, rfl⟩ := List.mem_map.mp hn'
    show ((cleanCite rows).filter fun r => decide (r.cited_paperid = pid)).length = _
    rw [← List.countP_eq_length_filter]

theorem citeEmit_key {clean : List CiteRec} {nodeIds : List String}
    {k : String × String} {l : CitationLink} (h : citeEmit clean nodeIds k = some l) :
    (l.source, l.target) = k := by
  rw [citeEmit] at h
  by_cases hg : ((nodeIds.any fun i => decide (i = k.1))
      && nodeIds.any fun i => decide (i = k.2)) = true
  · rw [if_pos hg] at h
    cases hf1 : clean.find? fun r => decide (r.citing_paperid = k.2) with
    | none => rw [hf1] at h; exact absurd h (by simp)
    | some rc =>
      cases hf2 : clean.find? fun r => decide (r.cited_paperid = k.1) with
      | none => rw [hf1, hf2] at h; exact absurd h (by simp)
      | some rd =>
        rw [hf1, hf2] at h
        rw [← Option.some.inj h]
  · rw [if_neg hg] at h
    exact absurd h (by simp)

theorem nodup_citeLinkKeys (clean : List CiteRec) : (citeLinkKeys clean).Nodup :=
  ((List.perm_insertionSort citeKeyLe (uniqueFirst (citePairs clean))).symm).nodup
    (nodup_uniqueFirst _)

theorem mem_citeLinkKeys {clean : List CiteRec} {k : String × String} :
    k ∈ citeLinkKeys clean ↔ k ∈ citePairs clean := by
  rw [citeLinkKeys,
    (List.perm_insertionSort citeKeyLe (uniqueFirst (citePairs clean))).mem_iff,
    mem_uniqueFirst]

/-- C2: the citation builder emits exactly one edge per distinct
`(cited_id, citing_id)` pair of the retained records; each edge's `value` is
the number of retained records with that pair, its `citing_year` is the
`year` of the first retained record whose citing id matches, its
`cited_year` the `ref_year` of the first whose cited id matches, and
`year_diff` is exactly their difference. -/
theorem citation_links_characterization (currentDir : String) (rows : List CitationRow) :
    (((generate_citation_network currentDir (some rows)).links.map
        fun l => (l.source, l.target)).Nodup)
    ∧ (∀ l ∈ (generate_citation_network currentDir (some rows)).links,
        l.value = ((cleanCite rows).countP
            fun r => decide (r.cited_paperid = l.source ∧ r.citing_paperid = l.target))
        ∧ (((cleanCite rows).find? fun r => decide (r.citing_paperid = l.target)).map
            fun r => r.year) = some l.citing_year
        ∧ (((cleanCite rows).find? fun r => decide (r.cited_paperid = l.source)).map
            fun r => r.ref_year) = some l.cited_year
        ∧ l.year_diff = l.citing_year - l.cited_year)
    ∧ (∀ r ∈ cleanCite rows,
        ∃ l ∈ (generate_citation_network currentDir (some rows)).links,
          l.source = r.cited_paperid ∧ l.target = r.citing_paperid) := by
  refine ⟨?_, ?_, ?_⟩
  · show ((buildCiteLinks (cleanCite rows) _).map fun l => (l.source, l.target)).Nodup
    exact nodup_map_filterMap (nodup_citeLinkKeys _) (fun k l h => citeEmit_key h)
  · intro l hl
    have hl' : l ∈ buildCiteLinks (cleanCite rows)
        ((buildCiteNodes (cleanCite rows)).map fun n => n.id) := hl
    obtain ⟨k, _, _, _, rc, rd, hrc, hrd, rfl⟩ := buildCiteLinks_mem.mp hl'
    refine ⟨count_citePairs _ k, ?_, ?_, rfl⟩
    · rw [hrc]; rfl
    · rw [hrd]; rfl
  · intro r hr
    have hk : (r.cited_paperid, r.citing_paperid) ∈ citeLinkKeys (cleanCite rows) :=
      mem_citeLinkKeys.mpr (List.mem_map.mpr ⟨r, hr, rfl⟩)
    have hm1 : r.cited_paperid
        ∈ (buildCiteNodes (cleanCite rows)).map fun n => n.id := by
      rw [buildCiteNodes_map_id, allPaperIds, mem_uniqueFirst]
      exact List.mem_append_right _ (List.mem_map.mpr ⟨r, hr, rfl⟩)
    have hm2 : r.citing_paperid
        ∈ (buildCiteNodes (cleanCite rows)).map fun n => n.id := by
      rw [buildCiteNodes_map_id, allPaperIds, mem_uniqueFirst]
      exact List.mem_append_left _ (List.mem_map.mpr ⟨r, hr, rfl⟩)
    have hrc : ((cleanCite rows).find? fun x => decide (x.citing_paperid
        = r.citing_paperid)).isSome := by
      rw [List.find?_isSome]
      exact ⟨r, hr, by simp⟩
    have hrd : ((cleanCite rows).find? fun x => decide (x.cited_paperid
        = r.cited_paperid)).isSome := by
      rw [List.find?_isSome]
      exact ⟨r, hr, by simp⟩
    obtain ⟨rc, hrc⟩ := Option.isSome_iff_exists.mp hrc
    obtain ⟨rd, hrd⟩ := Option.isSome_iff_exists.mp hrd
    refine ⟨_, buildCiteLinks_mem.mpr
      ⟨(r.cited_paperid, r.citing_paperid), hk, hm1, hm2, rc, rd, hrc, hrd, rfl⟩, rfl, rfl⟩

/-- C6: the enhanced builder's result is the citation builder's result with
each node extended by the constant `topic` and
`impact_score = citation_count * 0.8 + 2.0`; the error field and the entire
link list are identical. -/
theorem enhanced_extends_citation (currentDir : String) (file : Option (List CitationRow)) :
    generate_enhanced_citation_network currentDir file =
      { error := (generate_citation_network currentDir file).error
        nodes := (generate_citation_network currentDir file).nodes.map fun n =>
          { id := n.id, name := n.name, publish_year := n.publish_year,
            citation_count := n.citation_count, institution := n.institution,
            topic := "Computer Science",
            impact_score := impactScoreVal n.citation_count }
        links := (generate_citation_network currentDir file).links } := by
  cases file with
  | none => rfl
  | some df =>
    show ({ error := Option.none
            nodes := buildEnhancedNodes (cleanCite df)
            links := buildCiteLinks (cleanCite df)
              ((buildEnhancedNodes (cleanCite df)).map fun n => n.id) }
        : NetResult EnhancedPaperNode CitationLink) = _
    have hnodes : buildEnhancedNodes (cleanCite df)
        = (buildCiteNodes (cleanCite df)).map fun n =>
            { id := n.id, name := n.name, publish_year := n.publish_year,
              citation_count := n.citation_count, institution := n.institution,
              topic := "Computer Science",
              impact_score := impactScoreVal n.citation_count } := by
      rw [buildEnhancedNodes, buildCiteNodes, List.map_map]
      rfl
    have hids : ((buildEnhancedNodes (cleanCite df)).map fun n => n.id)
        = (buildCiteNodes (cleanCite df)).map fun n => n.id := by
      rw [buildEnhancedNodes_map_id, buildCiteNodes_map_id]
    rw [hids, hnodes]
    rfl

theorem generate_collaboration_network_some (currentDir : String) (df : List AffRow) :
    generate_collaboration_network currentDir (some df)
      = if (collaboration_pairs (cleanAff (sampleCapped df))).isEmpty then
          { error := some ("Author collaboration network data processing failed：" ++
              "KeyError: source_author")
            nodes := []
            links := [] }
        else
          { error := Option.none
            nodes := buildAuthorNodes (cleanAff (sampleCapped df))
            links := buildCollabLinks (collaboration_pairs (cleanAff (sampleCapped df)))
              ((buildAuthorNodes (cleanAff (sampleCapped df))).map fun n => n.id) } := rfl

theorem buildAuthorNodes_map_id (clean : List AffRec) :
    (buildAuthorNodes clean).map (fun n => n.id) = authorIds clean := by
  rw [buildAuthorNodes, List.map_map]
  exact List.map_id (authorIds clean)

theorem nodup_authorIds (clean : List AffRec) : (authorIds clean).Nodup := by
  rw [authorIds]
  exact ((List.perm_insertionSort pyLe _).symm).nodup (nodup_uniqueFirst _)

theorem mem_authorIds {clean : List AffRec} {a : String} :
    a ∈ authorIds clean ↔ a ∈ clean.map fun r => r.authorid := by
  rw [authorIds,
    (List.perm_insertionSort pyLe (uniqueFirst (clean.map fun r => r.authorid))).mem_iff,
    mem_uniqueFirst]

theorem buildCollabLinks_mem {pairs : List CollabPair} {nodeIds : List String}
    {l : CollabLink} :
    l ∈ buildCollabLinks pairs nodeIds ↔
      ∃ k ∈ collabKeys pairs, k.1 ∈ nodeIds ∧ k.2 ∈ nodeIds ∧
        l = { source := k.1, target := k.2,
              value := (pairs.map fun c => (c.source_author, c.target_author)).count k,
              co_authored_papers :=
                (pairs.map fun c => (c.source_author, c.target_author)).count k } := by
  rw [buildCollabLinks, List.mem_filterMap]
  constructor
  · rintro ⟨k, hk, hemit⟩
    rw [collabEmit] at hemit
    by_cases hg : (decide (k.1 ∈ nodeIds) && decide (k.2 ∈ nodeIds)) = true
    · rw [if_pos hg] at hemit
      obtain ⟨h1, h2⟩ : (k.1 ∈ nodeIds) ∧ (k.2 ∈ nodeIds) := by simpa using hg
      exact ⟨k, hk, h1, h2, (Option.some.inj hemit).symm⟩
    · rw [if_neg hg] at hemit
      exact absurd hemit (by simp)
  · rintro ⟨k, hk, h1, h2, hl⟩
    refine ⟨k, hk, ?_⟩
    rw [collabEmit, if_pos (show (decide (k.1 ∈ nodeIds) && decide (k.2 ∈ nodeIds)) = true
      by simp [h1, h2]), hl]

/-- C9: for every input and every builder, node ids are unique within the
result, and every emitted edge's source and target are ids of the result's
node set. -/
theorem network_results_invariants (currentDir : String)
    (cfile : Option (List CitationRow)) (afile : Option (List AffRow)) :
    (((generate_citation_network currentDir cfile).nodes.map fun n => n.id).Nodup
      ∧ ∀ l ∈ (generate_citation_network currentDir cfile).links,
          l.source ∈ ((generate_citation_network currentDir cfile).nodes.map fun n => n.id)
          ∧ l.target ∈ ((generate_citation_network currentDir cfile).nodes.map fun n => n.id))
    ∧ (((generate_collaboration_network currentDir afile).nodes.map fun n => n.id).Nodup
      ∧ ∀ l ∈ (generate_collaboration_network currentDir afile).links,
          l.source ∈ ((generate_collaboration_network currentDir afile).nodes.map fun n => n.id)
          ∧ l.target ∈ ((generate_collaboration_network currentDir afile).nodes.map
              fun n => n.id))
    ∧ (((generate_enhanced_citation_network currentDir cfile).nodes.map fun n => n.id).Nodup
      ∧ ∀ l ∈ (generate_enhanced_citation_network currentDir cfile).links,
          l.source ∈ ((generate_enhanced_citation_network currentDir cfile).nodes.map
              fun n => n.id)
          ∧ l.target ∈ ((generate_enhanced_citation_network currentDir cfile).nodes.map
              fun n => n.id)) := by
  refine ⟨?_, ?_, ?_⟩
  · cases cfile with
    | none => exact ⟨List.nodup_nil, fun l hl => absurd hl (List.not_mem_nil l)⟩
    | some rows =>
      constructor
      · show ((buildCiteNodes (cleanCite rows)).map fun n => n.id).Nodup
        rw [buildCiteNodes_map_id]
        exact nodup_uniqueFirst _
      · intro l hl
        have hl' : l ∈ buildCiteLinks (cleanCite rows)
            ((buildCiteNodes (cleanCite rows)).map fun n => n.id) := hl
        obtain ⟨k, _, h1, h2, rc, rd, _, _, rfl⟩ := buildCiteLinks_mem.mp hl'
        exact ⟨h1, h2⟩
  · cases afile with
    | none => exact ⟨List.nodup_nil, fun l hl => absurd hl (List.not_mem_nil l)⟩
    | some rows =>
      rw [generate_collaboration_network_some]
      by_cases hemp : (collaboration_pairs (cleanAff (sampleCapped rows))).isEmpty = true
      · rw [if_pos hemp]
        exact ⟨List.nodup_nil, fun l hl => absurd hl (List.not_mem_nil l)⟩
      · rw [if_neg hemp]
        constructor
        · show ((buildAuthorNodes (cleanAff (sampleCapped rows))).map fun n => n.id).Nodup
          rw [buildAuthorNodes_map_id]
          exact nodup_authorIds _
        · intro l hl
          obtain ⟨k, _, h1, h2, rfl⟩ := buildCollabLinks_mem.mp hl
          exact ⟨h1, h2⟩
  · cases cfile with
    | none => exact ⟨List.nodup_nil, fun l hl => absurd hl (List.not_mem_nil l)⟩
    | some rows =>
      constructor
      · show ((buildEnhancedNodes (cleanCite rows)).map fun n => n.id).Nodup
        rw [buildEnhancedNodes_map_id]
        exact nodup_uniqueFirst _
      · intro l hl
        have hl' : l ∈ buildCiteLinks (cleanCite rows)
            ((buildEnhancedNodes (cleanCite rows)).map fun n => n.id) := hl
        obtain ⟨k, _, h1, h2, rc, rd, _, _, rfl⟩ := buildCiteLinks_mem.mp hl'
        exact ⟨h1, h2⟩

/-- C5: when the affiliation input has more than 1000 distinct paper ids,
the builder processes exactly the records whose paper id is among the first
1000 distinct paper ids in input order, discarding the rest (more than 1000
distinct ids forces more than 1000 rows, so the cap of lines 163-166
fires). -/
theorem sampling_cap_first_1000 (currentDir : String) (rows : List AffRow)
    (h : 1000 < (uniqueFirst (rows.map fun r => r.paperid)).length) :
    generate_collaboration_network currentDir (some rows)
      = collabProcess (rows.filter fun r =>
          decide (r.paperid ∈ (uniqueFirst (rows.map fun x => x.paperid)).take 1000)) := by
  have hlen : 1000 < rows.length := by
    calc 1000 < (uniqueFirst (rows.map fun r => r.paperid)).length := h
    _ ≤ (rows.map fun r => r.paperid).length := length_uniqueFirst_le _
    _ = rows.length := List.length_map _ _
  show collabProcess (sampleCapped rows) = _
  rw [sampleCapped, if_pos hlen]

/-- The sampling-cap theorem at a concrete input: `manyPapersAffRows` has
1001 distinct paper ids, so the cap fires. -/
theorem sampling_cap_first_1000_witness :
    1000 < (uniqueFirst (manyPapersAffRows.map fun r => r.paperid)).length
    ∧ generate_collaboration_network "dir" (some manyPapersAffRows)
      = collabProcess (manyPapersAffRows.filter fun r =>
          decide (r.paperid
            ∈ (uniqueFirst (manyPapersAffRows.map fun x => x.paperid)).take 1000)) := by
  have hnd : (manyPapersAffRows.map fun r => r.paperid).Nodup := by
    rw [manyPapersAffRows, List.map_map]
    refine List.Nodup.map ?_ (List.nodup_range 1001)
    intro i j hij
    have h2 : String.mk (List.replicate i 'a') = String.mk (List.replicate j 'a') :=
      Option.some.inj hij
    have h3 : List.replicate i 'a' = List.replicate j 'a' := congrArg String.data h2
    simpa using congrArg List.length h3
  have hlen : 1000 < (uniqueFirst (manyPapersAffRows.map fun r => r.paperid)).length := by
    rw [uniqueFirst_eq_self hnd]
    simp [manyPapersAffRows]
  exact ⟨hlen, sampling_cap_first_1000 "dir" manyPapersAffRows hlen⟩

mutual
theorem isPlain_convert_eq : ∀ v : PyVal, isPlain v = true → convert_numpy_types v = v
  | PyVal.vNone, _ => rfl
  | PyVal.vBool _, _ => rfl
  | PyVal.vInt _, _ => rfl
  | PyVal.vFloat _, _ => rfl
  | PyVal.vStr _, _ => rfl
  | PyVal.npInt _, h => by simp [isPlain] at h
  | PyVal.npFloat _, h => by simp [isPlain] at h
  | PyVal.ndarray _, h => by simp [isPlain] at h
  | PyVal.vTuple _, _ => rfl
  | PyVal.vList es, h => by
    simp only [convert_numpy_types]
    rw [isPlainList_convert_eq es (by simpa [isPlain] using h)]
  | PyVal.vDict kvs, h => by
    simp only [convert_numpy_types]
    rw [isPlainDict_convert_eq kvs (by simpa [isPlain] using h)]
theorem isPlainList_convert_eq : ∀ l : PyList, isPlainList l = true → convertList l = l
  | PyList.nil, _ => rfl
  | PyList.cons e es, h => by
    have h' : isPlain e = true ∧ isPlainList es = true := by simpa [isPlainList] using h
    simp only [convertList]
    rw [isPlain_convert_eq e h'.1, isPlainList_convert_eq es h'.2]
theorem isPlainDict_convert_eq : ∀ d : PyDict, isPlainDict d = true → convertDict d = d
  | PyDict.dnil, _ => rfl
  | PyDict.dcons k v es, h => by
    have h' : isPlain v = true ∧ isPlainDict es = true := by simpa [isPlainDict] using h
    simp only [convertDict]
    rw [isPlain_convert_eq v h'.1, isPlainDict_convert_eq es h'.2]
end

mutual
theorem tolistElem_plain : ∀ v : PyVal, numericArrayElem v = true →
    isPlain (tolistElem v) = true
  | PyVal.npInt _, _ => rfl
  | PyVal.npFloat _, _ => rfl
  | PyVal.ndarray es, h => by
    simp only [tolistElem, isPlain]
    exact tolistList_plain es (by simpa [numericArrayElem] using h)
  | PyVal.vNone, h => by simp [numericArrayElem] at h
  | PyVal.vBool _, h => by simp [numericArrayElem] at h
  | PyVal.vInt _, h => by simp [numericArrayElem] at h
  | PyVal.vFloat _, h => by simp [numericArrayElem] at h
  | PyVal.vStr _, h => by simp [numericArrayElem] at h
  | PyVal.vList _, h => by simp [numericArrayElem] at h
  | PyVal.vTuple _, h => by simp [numericArrayElem] at h
  | PyVal.vDict _, h => by simp [numericArrayElem] at h
theorem tolistList_plain : ∀ l : PyList, numericArrayList l = true →
    isPlainList (tolistList l) = true
  | PyList.nil, _ => rfl
  | PyList.cons e es, h => by
    have h' : numericArrayElem e = true ∧ numericArrayList es = true := by
      simpa [numericArrayList] using h
    simp only [tolistList, isPlainList]
    rw [tolistElem_plain e h'.1, tolistList_plain es h'.2]
    rfl
end

mutual
theorem convertible_isPlain : ∀ v : PyVal, convertible v = true →
    isPlain (convert_numpy_types v) = true
  | PyVal.vNone, _ => rfl
  | PyVal.vBool _, _ => rfl
  | PyVal.vInt _, _ => rfl
  | PyVal.vFloat _, _ => rfl
  | PyVal.vStr _, _ => rfl
  | PyVal.npInt _, _ => rfl
  | PyVal.npFloat _, _ => rfl
  | PyVal.ndarray es, h => by
    simp only [convert_numpy_types, isPlain]
    exact tolistList_plain es (by simpa [convertible] using h)
  | PyVal.vTuple _, h => by simp [convertible] at h
  | PyVal.vList es, h => by
    simp only [convert_numpy_types, isPlain]
    exact convertibleList_isPlain es (by simpa [convertible] using h)
  | PyVal.vDict kvs, h => by
    simp only [convert_numpy_types, isPlain]
    exact convertibleDict_isPlain kvs (by simpa [convertible] using h)
theorem convertibleList_isPlain : ∀ l : PyList, convertibleList l = true →
    isPlainList (convertList l) = true
  | PyList.nil, _ => rfl
  | PyList.cons e es, h => by
    have h' : convertible e = true ∧ convertibleList es = true := by
      simpa [convertibleList] using h
    simp only [convertList, isPlainList]
    rw [convertible_isPlain e h'.1, convertibleList_isPlain es h'.2]
    rfl
theorem convertibleDict_isPlain : ∀ d : PyDict, convertibleDict d = true →
    isPlainDict (convertDict d) = true
  | PyDict.dnil, _ => rfl
  | PyDict.dcons k v es, h => by
    have h' : convertible v = true ∧ convertibleDict es = true := by
      simpa [convertibleDict] using h
    simp only [convertDict, isPlainDict]
    rw [convertible_isPlain v h'.1, convertibleDict_isPlain es h'.2]
    rfl
end

/-- C8, counterexample to the claim as stated: a tuple is a sequence, but
`isinstance(obj, list)` is false for it, so `convert_numpy_types` returns it
unchanged and the NumPy integer inside survives (the result is not
serialization-safe). -/
theorem convert_numpy_types_tuple_cex :
    convert_numpy_types (PyVal.vTuple (PyList.cons (PyVal.npInt 0) PyList.nil))
      = PyVal.vTuple (PyList.cons (PyVal.npInt 0) PyList.nil)
    ∧ isPlain (convert_numpy_types (PyVal.vTuple (PyList.cons (PyVal.npInt 0) PyList.nil)))
      = false :=
  ⟨rfl, rfl⟩

/-- C8 as amended: `convert_numpy_types` recurses through dicts and lists
(not tuples), converts NumPy integers, floats and numeric arrays reachable
through dicts and lists into their plain equivalents, leaves already-plain
values unchanged, and does not alter strings, booleans or `None`. -/
theorem convert_numpy_types_spec :
    (∀ v : PyVal, isPlain v = true → convert_numpy_types v = v)
    ∧ (∀ v : PyVal, convertible v = true → isPlain (convert_numpy_types v) = true)
    ∧ (∀ s : String, convert_numpy_types (PyVal.vStr s) = PyVal.vStr s)
    ∧ (∀ b : Bool, convert_numpy_types (PyVal.vBool b) = PyVal.vBool b)
    ∧ convert_numpy_types PyVal.vNone = PyVal.vNone
    ∧ (∀ n : Int, convert_numpy_types (PyVal.npInt n) = PyVal.vInt n)
    ∧ (∀ q : Rat, convert_numpy_types (PyVal.npFloat q) = PyVal.vFloat q) :=
  ⟨isPlain_convert_eq, convertible_isPlain, fun _ => rfl, fun _ => rfl, rfl,
   fun _ => rfl, fun _ => rfl⟩

theorem count_eq_countP_decide {α : Type} [BEq α] [LawfulBEq α] [DecidableEq α]
    (l : List α) (a : α) : l.count a = l.countP fun y => decide (y = a) := by
  rw [List.count_eq_countP]
  apply List.countP_congr
  intro b _
  simp

theorem countP_flatMap {α β : Type} (l : List α) (f : α → List β) (p : β → Bool) :
    (l.flatMap f).countP p = (l.map fun x => (f x).countP p).sum := by
  induction l with
  | nil => rfl
  | cons x xs ih => simp [List.flatMap_cons, List.countP_append, ih]

theorem pairsOf_eq_nil_of_short {l : List String} (h : l.length < 2) : pairsOf l = [] := by
  match l, h with
  | [], _ => rfl
  | [a], _ => simp [pairsOf]

theorem pairsOf_rel {R : String → String → Prop} :
    ∀ {l : List String}, l.Pairwise R → ∀ {a b : String}, (a, b) ∈ pairsOf l → R a b := by
  intro l
  induction l with
  | nil => intro _ a b hmem; simp [pairsOf] at hmem
  | cons x rest ih =>
    intro h a b hmem
    obtain ⟨hx, hrest⟩ := List.pairwise_cons.mp h
    rw [pairsOf, List.mem_append] at hmem
    rcases hmem with hmem | hmem
    · obtain ⟨y, hy, hxy⟩ := List.mem_map.mp hmem
      have h1 : x = a := congrArg Prod.fst hxy
      have h2 : y = b := congrArg Prod.snd hxy
      subst h1; subst h2
      exact hx _ hy
    · exact ih hrest hmem

theorem countP_pair_map_fst (rest : List String) (x a b : String) :
    (rest.map fun y => (x, y)).countP (fun pr => decide (pr = (a, b)))
      = if x = a then rest.countP (fun y => decide (y = b)) else 0 := by
  rw [List.countP_map]
  by_cases hxa : x = a
  · subst hxa
    rw [if_pos rfl]
    apply List.countP_congr
    intro y _
    simp [Prod.ext_iff]
  · rw [if_neg hxa, List.countP_eq_zero.mpr]
    intro y _
    simp [Prod.ext_iff]
    intro h
    exact absurd h hxa

theorem countP_pairsOf {l : List String} (h : l.Pairwise pyLt) (a b : String) :
    (pairsOf l).countP (fun pr => decide (pr = (a, b)))
      = if a ∈ l ∧ b ∈ l ∧ pyLt a b then 1 else 0 := by
  induction l with
  | nil => simp [pairsOf]
  | cons x rest ih =>
    obtain ⟨hx, hrest⟩ := List.pairwise_cons.mp h
    have hnd : rest.Nodup :=
      (hrest.imp fun hlt => fun heq => absurd (heq ▸ hlt) (pyLt_irrefl _))
    rw [pairsOf, List.countP_append, countP_pair_map_fst, ih hrest]
    by_cases hxa : x = a
    · subst hxa
      rw [if_pos rfl]
      have hanr : x ∉ rest := fun hmem => absurd (hx x hmem) (pyLt_irrefl x)
      rw [countP_decide_eq_of_nodup hnd b]
      by_cases hbr : b ∈ rest
      · rw [if_pos hbr,
          if_neg (fun hc : x ∈ rest ∧ b ∈ rest ∧ pyLt x b => absurd hc.1 hanr),
          if_pos ⟨List.mem_cons_self x rest, List.mem_cons_of_mem x hbr, hx b hbr⟩]
      · rw [if_neg hbr, if_neg (fun hc : x ∈ rest ∧ b ∈ rest ∧ pyLt x b => absurd hc.1 hanr)]
        by_cases hbx : b = x
        · subst hbx
          rw [if_neg (fun hc : b ∈ b :: rest ∧ b ∈ b :: rest ∧ pyLt b b =>
            absurd hc.2.2 (pyLt_irrefl b))]
        · rw [if_neg (fun hc : x ∈ x :: rest ∧ b ∈ x :: rest ∧ pyLt x b =>
            absurd ((List.mem_cons.mp hc.2.1).resolve_left hbx) hbr)]
    · rw [if_neg hxa, Nat.zero_add]
      by_cases hcond : a ∈ rest ∧ b ∈ rest ∧ pyLt a b
      · rw [if_pos hcond, if_pos ⟨List.mem_cons_of_mem x hcond.1,
          List.mem_cons_of_mem x hcond.2.1, hcond.2.2⟩]
      · rw [if_neg hcond, if_neg ?_]
        rintro ⟨ha, hb, hlt⟩
        have ha' : a ∈ rest := (List.mem_cons.mp ha).resolve_left fun h' => hxa h'.symm
        rcases List.mem_cons.mp hb with hb' | hb'
        · subst hb'
          exact absurd (hx a ha') (pyLt_asymm hlt)
        · exact hcond ⟨ha', hb', hlt⟩

theorem nodup_snd_of_nodup_pairs {l : List AffRec} {p : String}
    (hall : ∀ r ∈ l, r.paperid = p)
    (h : (l.map fun r => (r.paperid, r.authorid)).Nodup) :
    (l.map fun r => r.authorid).Nodup := by
  induction l with
  | nil => simp
  | cons r t ih =>
    rw [List.map_cons, List.nodup_cons] at h ⊢
    refine ⟨?_, ih (fun x hx => hall x (List.mem_cons_of_mem r hx)) h.2⟩
    intro hmem
    obtain ⟨r', hr', hr'e⟩ := List.mem_map.mp hmem
    apply h.1
    refine List.mem_map.mpr ⟨r', hr', ?_⟩
    rw [hr'e, hall r' (List.mem_cons_of_mem r hr'), hall r (List.mem_cons_self r t)]

theorem authorsOfPaper_pairwise {clean : List AffRec} (p : String)
    (hnd : (clean.map fun r => (r.paperid, r.authorid)).Nodup) :
    (authorsOfPaper clean p).Pairwise pyLt := by
  have hfil : ∀ r ∈ clean.filter fun r => decide (r.paperid = p), r.paperid = p := by
    intro r hr
    have := (List.mem_filter.mp hr).2
    simpa using this
  have hnd₁ : ((clean.filter fun r => decide (r.paperid = p)).map
      fun r => (r.paperid, r.authorid)).Nodup :=
    ((List.filter_sublist clean).map fun r => (r.paperid, r.authorid)).nodup hnd
  have hnd₂ : ((clean.filter fun r => decide (r.paperid = p)).map
      fun r => r.authorid).Nodup := nodup_snd_of_nodup_pairs hfil hnd₁
  have hsorted : (authorsOfPaper clean p).Sorted pyLe := by
    rw [authorsOfPaper]
    exact List.sorted_insertionSort pyLe _
  have hnd₃ : (authorsOfPaper clean p).Nodup := by
    rw [authorsOfPaper]
    exact ((List.perm_insertionSort pyLe _).symm).nodup hnd₂
  exact (hsorted.and hnd₃).imp fun hab => pyLt_of_pyLe_of_ne hab.1 hab.2

theorem mem_authorsOfPaper {clean : List AffRec} {p a : String} :
    a ∈ authorsOfPaper clean p
      ↔ (clean.any fun r => decide (r.paperid = p ∧ r.authorid = a)) = true := by
  rw [authorsOfPaper, (List.perm_insertionSort pyLe _).mem_iff, List.mem_map,
    List.any_eq_true]
  constructor
  · rintro ⟨r, hr, rfl⟩
    obtain ⟨hr₁, hr₂⟩ := List.mem_filter.mp hr
    have hp : r.paperid = p := by simpa using hr₂
    exact ⟨r, hr₁, by simp [hp]⟩
  · rintro ⟨r, hr, hcond⟩
    obtain ⟨h₁, h₂⟩ : r.paperid = p ∧ r.authorid = a := by simpa using hcond
    exact ⟨r, List.mem_filter.mpr ⟨hr, by simpa using h₁⟩, h₂⟩

theorem collab_pair_keys_eq (clean : List AffRec) :
    ((collaboration_pairs clean).map fun c => (c.source_author, c.target_author))
      = (paperIdKeys clean).flatMap fun p => pairsOf (authorsOfPaper clean p) := by
  rw [collaboration_pairs, List.map_flatMap]
  congr 1
  funext p
  dsimp only
  by_cases h2 : 2 ≤ (authorsOfPaper clean p).length
  · rw [if_pos h2, List.map_map]
    have hcomp : ((fun c : CollabPair => (c.source_author, c.target_author))
        ∘ fun pr : String × String => ⟨pr.1, pr.2, p⟩) = fun pr : String × String => pr := by
      funext pr
      simp
    rw [hcomp]
    exact List.map_id _
  · rw [if_neg h2]
    exact (pairsOf_eq_nil_of_short (Nat.lt_of_not_le h2)).symm

theorem sum_map_ite {α : Type} (l : List α) (q : α → Prop) [DecidablePred q] :
    (l.map fun x => if q x then 1 else 0).sum = l.countP fun x => decide (q x) := by
  induction l with
  | nil => rfl
  | cons x xs ih =>
    rw [List.map_cons, List.sum_cons, List.countP_cons, ih]
    by_cases hq : q x
    · simp [hq, Nat.add_comm]
    · simp [hq]

theorem countP_collab_keys (clean : List AffRec)
    (hnd : (clean.map fun r => (r.paperid, r.authorid)).Nodup)
    {a b : String} (hab : pyLt a b) :
    ((collaboration_pairs clean).map fun c => (c.source_author, c.target_author)).countP
        (fun pr => decide (pr = (a, b)))
      = coAuthoredPapers clean a b := by
  rw [collab_pair_keys_eq, countP_flatMap]
  have hper : ∀ p : String,
      (pairsOf (authorsOfPaper clean p)).countP (fun pr => decide (pr = (a, b)))
        = if ((clean.any fun r => decide (r.paperid = p ∧ r.authorid = a)) = true
              ∧ (clean.any fun r => decide (r.paperid = p ∧ r.authorid = b)) = true)
          then 1 else 0 := by
    intro p
    rw [countP_pairsOf (authorsOfPaper_pairwise p hnd) a b]
    by_cases hc : a ∈ authorsOfPaper clean p ∧ b ∈ authorsOfPaper clean p
    · rw [if_pos ⟨hc.1, hc.2, hab⟩,
        if_pos ⟨mem_authorsOfPaper.mp hc.1, mem_authorsOfPaper.mp hc.2⟩]
    · rw [if_neg (fun h => hc ⟨h.1, h.2.1⟩),
        if_neg (fun h => hc ⟨mem_authorsOfPaper.mpr h.1, mem_authorsOfPaper.mpr h.2⟩)]
  rw [List.map_congr_left (fun p _ => hper p), sum_map_ite]
  rw [coAuthoredPapers, paperIdKeys,
    (List.perm_insertionSort pyLe (uniqueFirst (clean.map fun r => r.paperid))).countP_eq _]
  apply List.countP_congr
  intro p _
  simp [Bool.and_eq_true]

theorem mem_collabKeys {pairs : List CollabPair} {k : String × String} :
    k ∈ collabKeys pairs ↔ k ∈ pairs.map fun c => (c.source_author, c.target_author) := by
  rw [collabKeys, (List.perm_insertionSort citeKeyLe _).mem_iff, mem_uniqueFirst]

set_option maxHeartbeats 1000000 in
/-- C1 as amended: when no two cleaned rows share the same
`(paperid, authorid)` pair, every collaboration edge has
`source < target` lexicographically and `value = co_authored_papers` equal
to the number of distinct papers on which both authors appear together; and
every lexicographically ordered author pair sharing at least one paper gets
exactly such an edge (so the edges are exactly the `C(k,2)` unordered pairs
of the papers with at least two authors). -/
theorem collaboration_links_characterization (currentDir : String) (rows : List AffRow)
    (hnd : ((cleanAff (sampleCapped rows)).map fun r => (r.paperid, r.authorid)).Nodup) :
    (∀ l ∈ (generate_collaboration_network currentDir (some rows)).links,
        pyLt l.source l.target
        ∧ l.value = l.co_authored_papers
        ∧ l.co_authored_papers
            = coAuthoredPapers (cleanAff (sampleCapped rows)) l.source l.target)
    ∧ (∀ a b : String, pyLt a b →
        coAuthoredPapers (cleanAff (sampleCapped rows)) a b ≠ 0 →
        ∃ l ∈ (generate_collaboration_network currentDir (some rows)).links,
          l.source = a ∧ l.target = b
          ∧ l.value = coAuthoredPapers (cleanAff (sampleCapped rows)) a b) := by
  constructor
  · intro l hl
    rw [generate_collaboration_network_some] at hl
    by_cases hemp : (collaboration_pairs (cleanAff (sampleCapped rows))).isEmpty = true
    · rw [if_pos hemp] at hl
      exact absurd hl (List.not_mem_nil l)
    · rw [if_neg hemp] at hl
      obtain ⟨k, hk, h1, h2, rfl⟩ := buildCollabLinks_mem.mp hl
      have hkmem : k ∈ (collaboration_pairs (cleanAff (sampleCapped rows))).map
          fun c => (c.source_author, c.target_author) := mem_collabKeys.mp hk
      have hkstrict : pyLt k.1 k.2 := by
        rw [collab_pair_keys_eq] at hkmem
        obtain ⟨p, _, hp⟩ := List.mem_flatMap.mp hkmem
        exact pairsOf_rel (authorsOfPaper_pairwise p hnd) hp
      refine ⟨hkstrict, rfl, ?_⟩
      show ((collaboration_pairs (cleanAff (sampleCapped rows))).map
          fun c => (c.source_author, c.target_author)).count k
        = coAuthoredPapers (cleanAff (sampleCapped rows)) k.1 k.2
      rw [count_eq_countP_decide]
      exact countP_collab_keys (cleanAff (sampleCapped rows)) hnd hkstrict
  · intro a b hab hcop
    have hcnt : 0 < ((collaboration_pairs (cleanAff (sampleCapped rows))).map
        fun c => (c.source_author, c.target_author)).countP
          (fun pr => decide (pr = (a, b))) := by
      rw [countP_collab_keys (cleanAff (sampleCapped rows)) hnd hab]
      exact Nat.pos_of_ne_zero hcop
    obtain ⟨k', hk'mem, hk'p⟩ := List.countP_pos_iff.mp hcnt
    have hk'eq : k' = (a, b) := by simpa using hk'p
    subst hk'eq
    have hkeys : (a, b) ∈ collabKeys (collaboration_pairs (cleanAff (sampleCapped rows))) :=
      mem_collabKeys.mpr hk'mem
    have hne : ¬ (collaboration_pairs (cleanAff (sampleCapped rows))).isEmpty = true := by
      obtain ⟨c, hc, _⟩ := List.mem_map.mp hk'mem
      cases hpl : collaboration_pairs (cleanAff (sampleCapped rows)) with
      | nil => rw [hpl] at hc; exact absurd hc (List.not_mem_nil c)
      | cons _ _ => simp [hpl]
    have hex : ∃ p ∈ uniqueFirst ((cleanAff (sampleCapped rows)).map fun r => r.paperid),
        (((cleanAff (sampleCapped rows)).any
            fun r => decide (r.paperid = p ∧ r.authorid = a))
          && ((cleanAff (sampleCapped rows)).any
            fun r => decide (r.paperid = p ∧ r.authorid = b))) = true := by
      have hpos := Nat.pos_of_ne_zero hcop
      rw [coAuthoredPapers] at hpos
      exact List.countP_pos_iff.mp hpos
    obtain ⟨p, _, hpp⟩ := hex
    obtain ⟨hA, hB⟩ : _ ∧ _ := by simpa [Bool.and_eq_true] using hpp
    have hmema : a ∈ (buildAuthorNodes (cleanAff (sampleCapped rows))).map fun n => n.id := by
      rw [buildAuthorNodes_map_id, mem_authorIds]
      obtain ⟨ra, hra, _, hra2⟩ := hA
      exact List.mem_map.mpr ⟨ra, hra, hra2⟩
    have hmemb : b ∈ (buildAuthorNodes (cleanAff (sampleCapped rows))).map fun n => n.id := by
      rw [buildAuthorNodes_map_id, mem_authorIds]
      obtain ⟨rb, hrb, _, hrb2⟩ := hB
      exact List.mem_map.mpr ⟨rb, hrb, hrb2⟩
    have hlinkmem := buildCollabLinks_mem.mpr ⟨(a, b), hkeys, hmema, hmemb, rfl⟩
    refine ⟨CollabLink.mk (a, b).1 (a, b).2
        (((collaboration_pairs (cleanAff (sampleCapped rows))).map
          fun c => (c.source_author, c.target_author)).count (a, b))
        (((collaboration_pairs (cleanAff (sampleCapped rows))).map
          fun c => (c.source_author, c.target_author)).count (a, b)), ?_, rfl, rfl, ?_⟩
    · rw [generate_collaboration_network_some, if_neg hne]
      exact hlinkmem
    · show ((collaboration_pairs (cleanAff (sampleCapped rows))).map
          fun c => (c.source_author, c.target_author)).count (a, b)
        = coAuthoredPapers (cleanAff (sampleCapped rows)) a b
      rw [count_eq_countP_decide]
      exact countP_collab_keys (cleanAff (sampleCapped rows)) hnd hab

/-- C1, counterexample to the claim as stated: when the same
`(paperid, authorid)` cell pair occurs on two rows, the sorted per-paper
author list has a repeated entry, `combinations` emits a degenerate pair
whose source is not strictly below its target, and a genuine pair is counted
once per row rather than once per distinct paper. -/
theorem collaboration_links_claim_cex :
    (∃ l ∈ (generate_collaboration_network "dir" (some dupAffRows)).links,
      pyStrLt l.source l.target = false)
    ∧ (∃ l ∈ (generate_collaboration_network "dir" (some dupAffRows)).links,
      l.value ≠ coAuthoredPapers (cleanAff (sampleCapped dupAffRows)) l.source l.target) := by
  decide

/-- The amended collaboration-edge theorem at a concrete duplicate-free
input: two authors sharing two papers. -/
theorem collaboration_links_characterization_witness :
    ((cleanAff (sampleCapped twoPaperAffRows)).map fun r => (r.paperid, r.authorid)).Nodup
    ∧ ((∀ l ∈ (generate_collaboration_network "dir" (some twoPaperAffRows)).links,
          pyLt l.source l.target
          ∧ l.value = l.co_authored_papers
          ∧ l.co_authored_papers
              = coAuthoredPapers (cleanAff (sampleCapped twoPaperAffRows)) l.source l.target)
      ∧ (∀ a b : String, pyLt a b →
          coAuthoredPapers (cleanAff (sampleCapped twoPaperAffRows)) a b ≠ 0 →
          ∃ l ∈ (generate_collaboration_network "dir" (some twoPaperAffRows)).links,
            l.source = a ∧ l.target = b
            ∧ l.value = coAuthoredPapers (cleanAff (sampleCapped twoPaperAffRows)) a b)) :=
  ⟨by decide, collaboration_links_characterization "dir" twoPaperAffRows (by decide)⟩

/-- The spec's end-to-end example: two records citing `"P2"` from `"P1"`
yield nodes `P1` (citation_count 0) and `P2` (citation_count 2) and one edge
`P2 → P1` with value 2. -/
theorem two_row_end_to_end :
    ((generate_citation_network "dir" (some twoRowCitationRows)).nodes.map
      fun n => (n.id, n.citation_count)) = [("P1", 0), ("P2", 2)]
    ∧ ((generate_citation_network "dir" (some twoRowCitationRows)).links.map
      fun l => (l.source, l.target, l.value)) = [("P2", "P1", 2)] := by
  decide
